import Mathlib

/-!
Shallow embedding of the Agent Event Gateway of the Esprit-Hub repository
(`esprit/apps/gateway/src`): the SSE broadcast hub (`sse.ts`), the event intake
route (`routes/events.ts`) and the run dispatch route (`routes/run.ts`).

Vocabulary: the specification names the wire fields and event kinds abstractly;
the code uses `npc` for the spec's "channel", `type` for the spec's "kind", and
the kind strings `step`, `awaiting`, `done`, `error` for the spec's `progress`,
`awaiting-input`, `completed`, `failed`.  `register`/`unregister` on the
Broadcast Hub are `SseHub.add`/`SseHub.remove` in the code, and the Mapping
Store's `agentId`/`callbackUrl` are the code's `agent`/`webhookUrl` fields.

Connections (`FastifyReply` handles) are modelled by natural-number identifiers;
JavaScript `Map`s keyed by strings are modelled by association lists in
insertion order, and JavaScript `Set`s by duplicate-free lists in insertion
order, matching their iteration semantics.
-/

namespace EspritGateway

/-- JSON values, as produced by `JSON.parse` on a request body.  `num` carries
an integer: the only numeric fields the gateway itself manipulates are HTTP
status codes. -/
inductive Json where
  | null : Json
  | bool : Bool → Json
  | num : Int → Json
  | str : String → Json
  | arr : List Json → Json
  | obj : List (String × Json) → Json

/-- The event type carried on the wire (`sse.ts`, `SseEvent.type`): at runtime
a plain string, constrained by the `z.enum` of `routes/events.ts` and the TS
union type of `sse.ts` to the five-element vocabulary `eventTypes`. -/
def eventTypes : List String := ["started", "step", "awaiting", "done", "error"]

/-- An `SseEvent` as defined in `sse.ts`: channel name `npc`, event `type`,
optional opaque `data`, optional timestamp `ts`. -/
structure SseEvent where
  npc : String
  type : String
  data : Option Json
  ts : Option String

/-- First-match lookup in an association list, the model of JS `Map.get`. -/
def mapGet {α : Type} : List (String × α) → String → Option α
  | [], _ => none
  | (k, v) :: rest, key => if k = key then some v else mapGet rest key

/-- Model of JS `Map.set`: replace the value of the first entry with the given
key in place, or append a fresh entry at the end. -/
def mapSet {α : Type} : List (String × α) → String → α → List (String × α)
  | [], key, v => [(key, v)]
  | (k, w) :: rest, key, v =>
    if k = key then (k, v) :: rest else (k, w) :: mapSet rest key v

/-- Model of JS `Map.delete`: remove the first entry with the given key. -/
def mapDelete {α : Type} : List (String × α) → String → List (String × α)
  | [], _ => []
  | (k, w) :: rest, key => if k = key then rest else (k, w) :: mapDelete rest key

/-- Model of JS `Set.add` on an insertion-ordered duplicate-free list: a member
already present keeps its position, a new member is appended. -/
def setAdd (s : List Nat) (c : Nat) : List Nat :=
  if c ∈ s then s else s ++ [c]

/-- The broadcast hub of `sse.ts`: a `Map` from channel name (`npc`) to the
`Set` of open subscriber connections. -/
structure SseHub where
  channels : List (String × List Nat)
deriving DecidableEq

/-- Hub states reachable through `add`/`remove` from the empty hub: channel
keys are unique (JS `Map`), every stored subscriber set is non-empty (empty
sets are deleted by `remove`) and duplicate-free (JS `Set`). -/
def WFHub (h : SseHub) : Prop :=
  (h.channels.map Prod.fst).Nodup ∧ ∀ p ∈ h.channels, p.2 ≠ [] ∧ p.2.Nodup

instance (h : SseHub) : Decidable (WFHub h) := by
  unfold WFHub; infer_instance

/-- `SseHub.add` (the spec's `register`): create the channel's set if absent,
then add the connection to it. -/
def SseHub.add (h : SseHub) (npc : String) (res : Nat) : SseHub :=
  match mapGet h.channels npc with
  | none => ⟨mapSet h.channels npc [res]⟩
  | some s => ⟨mapSet h.channels npc (setAdd s res)⟩

/-- `SseHub.remove` (the spec's `unregister`): if the channel has a set, delete
the connection from it and drop the channel entry when the set became empty;
otherwise do nothing. -/
def SseHub.remove (h : SseHub) (npc : String) (res : Nat) : SseHub :=
  match mapGet h.channels npc with
  | none => h
  | some s =>
    let s' := s.erase res
    if s' = [] then ⟨mapDelete h.channels npc⟩ else ⟨mapSet h.channels npc s'⟩

/-- The timestamp written into the serialized broadcast payload:
`evt.ts || new Date().toISOString()` in `SseHub.broadcast`, with `now` standing
for the clock reading.  JavaScript `||` treats the empty string as falsy. -/
def serializedTs (evt : SseEvent) (now : String) : String :=
  match evt.ts with
  | some s => if s = "" then now else s
  | none => now

/-- The object `JSON.stringify` serializes in `SseHub.broadcast`:
`{ ...evt, ts: evt.ts || new Date().toISOString() }`. -/
structure WireEvent where
  npc : String
  type : String
  data : Option Json
  ts : String

def wireOf (evt : SseEvent) (now : String) : WireEvent :=
  ⟨evt.npc, evt.type, evt.data, serializedTs evt now⟩

/-- One delivery attempt of `SseHub.broadcast` to one connection: the pair of
`res.raw.write` calls, `event: <type>` then the serialized data line. -/
structure Delivery where
  conn : Nat
  eventLine : String
  dataEvent : WireEvent

/-- `SseHub.broadcast` of `sse.ts`: look up the channel's set; if absent return
at once; otherwise write the event to every connection of the set, in
iteration order.  The hub state itself is not modified; the returned list is
the sequence of delivery attempts performed. -/
def SseHub.broadcast (h : SseHub) (evt : SseEvent) (now : String) : List Delivery :=
  match mapGet h.channels evt.npc with
  | none => []
  | some s => s.map (fun res => ⟨res, "event: " ++ evt.type, wireOf evt now⟩)

/-- Delivery attempts annotated with a per-connection success flag.  Node's
`ServerResponse.write` reports failure on a closed connection through its
return value and an asynchronously emitted error event; it does not throw
synchronously for a string chunk, and the loop in `SseHub.broadcast` ignores
the return value, so the sequence of attempted connections cannot depend on
which writes succeed.  `connOk` models which connections accept writes. -/
def SseHub.broadcastResults (h : SseHub) (evt : SseEvent) (now : String)
    (connOk : Nat → Bool) : List (Delivery × Bool) :=
  (h.broadcast evt now).map (fun d => (d, connOk d.conn))

/-! ## Event intake route (`routes/events.ts`) -/

/-- The raw JSON body of a `POST /api/events` request, split by field name.
`EventSchema` declares `npc`, `type` and `data`; any further key of the body
(`ts` is the one of interest, since `SseEvent` has a `ts` field) is an unknown
key that `z.object` strips during parsing. -/
structure RawBody where
  npc : Option Json
  type : Option Json
  data : Option Json
  ts : Option Json

/-- `EventSchema.safeParse`: `npc` must be a string of length at least one
(`z.string().min(1)`), `type` a string belonging to the `z.enum` vocabulary,
`data` is optional and unconstrained (`z.any().optional()`); unknown keys such
as `ts` are stripped, so the parsed event never carries a timestamp. -/
def eventSchemaSafeParse (b : RawBody) : Option SseEvent :=
  match b.npc with
  | some (Json.str n) =>
    match b.type with
    | some (Json.str t) =>
      if 1 ≤ n.length ∧ t ∈ eventTypes then some ⟨n, t, b.data, none⟩ else none
    | _ => none
  | _ => none

/-- Outcome of the `POST /api/events` handler: HTTP status, the event handed
to `hub.broadcast` (if any), and the delivery attempts that broadcast made. -/
structure EventsResult where
  status : Nat
  broadcasted : Option SseEvent
  deliveries : List Delivery

/-- The `POST /api/events` handler of `routes/events.ts`: on a parse failure
reply `400` without broadcasting; on success broadcast the parsed event and
reply `200` with an `ok` acknowledgment, whether or not any subscriber is
registered. -/
def registerEventsHandler (h : SseHub) (b : RawBody) (now : String) : EventsResult :=
  match eventSchemaSafeParse b with
  | none => ⟨400, none, []⟩
  | some evt => ⟨200, some evt, h.broadcast evt now⟩

/-! ## Run dispatch route (`routes/run.ts`) -/

/-- One row of the agent mapping file (`AGENT_MAP_FILE` JSON array). -/
structure Mapping where
  agent : String
  npc : String
  webhookUrl : String
deriving DecidableEq

/-- The parsed `RunBody` of a `POST /api/run/:agent` request:
`npc` optional string, `payload` optional and unconstrained. -/
structure RunBody where
  npc : Option String
  payload : Option Json

/-- The JSON body of the outbound `fetch` to the webhook:
`JSON.stringify(\x7b payload: body.payload ?? \x7b\x7d, npc, agent \x7d)`. -/
structure PostBody where
  payload : Json
  npc : String
  agent : String

/-- Result of the outbound `fetch` to the webhook URL, as observed by the
handler: `res.ok` true; `res.ok` false with status and response text; or the
`fetch` promise rejecting (network error, timeout) with an error message. -/
inductive FetchResult where
  | success : FetchResult
  | httpError : Nat → String → FetchResult
  | networkFailure : String → FetchResult

/-- One observable side effect of the run handler, in program order: a call to
`hub.broadcast` or the attempt of the outbound `fetch` POST. -/
inductive Effect where
  | broadcast : SseEvent → Effect
  | post : String → PostBody → Effect

/-- Outcome of the `POST /api/run/:agent` handler: reply status and the
ordered trace of side effects it performed. -/
structure RunResult where
  status : Nat
  effects : List Effect

/-- The channel used for every broadcast and for the outbound body:
`const npc = body.npc || row.npc` — a non-empty `npc` in the request body
overrides the mapped channel; an absent or empty one falls back to the row. -/
def resolveNpc (b : RunBody) (rowNpc : String) : String :=
  match b.npc with
  | some s => if s = "" then rowNpc else s
  | none => rowNpc

/-- The synthetic event emitted before the outbound call:
`hub.broadcast(\x7b npc, type: 'started', data: \x7b agent, at: ... \x7d \x7d)`. -/
def startedEvent (npc agent now : String) : SseEvent :=
  ⟨npc, "started", some (Json.obj [("agent", Json.str agent), ("at", Json.str now)]), none⟩

/-- The `POST /api/run/:agent` handler of `routes/run.ts`, parameterized by
the mapping rows parsed from the file content read inside the handler, and by
the outcome of the outbound `fetch`.  Unknown agent: reply `404` with no side
effect.  Known agent: broadcast `started`, then attempt the POST; on an HTTP
error status broadcast an `error` event with status and text and reply `502`;
on a network failure broadcast an `error` event with the message and reply
`500`; on success reply `200`. -/
def registerRunHandler (mappings : List Mapping) (agent : String) (b : RunBody)
    (fetchRes : FetchResult) (now : String) : RunResult :=
  match mappings.find? (fun m => m.agent == agent) with
  | none => ⟨404, []⟩
  | some row =>
    let npc := resolveNpc b row.npc
    let started := Effect.broadcast (startedEvent npc agent now)
    let postEff := Effect.post row.webhookUrl ⟨b.payload.getD (Json.obj []), npc, agent⟩
    match fetchRes with
    | .success => ⟨200, [started, postEff]⟩
    | .httpError st txt =>
      ⟨502, [started, postEff, Effect.broadcast ⟨npc, "error",
        some (Json.obj [("agent", Json.str agent), ("status", Json.num st), ("txt", Json.str txt)]),
        none⟩]⟩
    | .networkFailure msg =>
      ⟨500, [started, postEff, Effect.broadcast ⟨npc, "error",
        some (Json.obj [("agent", Json.str agent), ("message", Json.str msg)]), none⟩]⟩

/-- Gateway state relevant to agent resolution across the process lifetime.
`env.ts` captures only the file PATH (`AGENT_MAP_FILE`) at module load; the
run handler re-reads the file on every request
(`await fs.readFile(env.AGENT_MAP_FILE, ...)` inside `app.post`), so the rows
available to a request are those parsed from the file content at request
time, here recorded next to the content the file had at process start. -/
structure GatewayFs where
  startupContent : List Mapping
  currentContent : List Mapping

/-- A run request served against the gateway state: the handler consults the
file content as it is at request time. -/
def handleRunRequest (fsState : GatewayFs) (agent : String) (b : RunBody)
    (fetchRes : FetchResult) (now : String) : RunResult :=
  registerRunHandler fsState.currentContent agent b fetchRes now

/-- Recognizes the broadcast of a `started` event on the given channel. -/
def isStartedOn (ch : String) : Effect → Bool
  | .broadcast evt => evt.npc == ch && evt.type == "started"
  | _ => false

/-- Recognizes an outbound POST attempt. -/
def isPostEffect : Effect → Bool
  | .post _ _ => true
  | _ => false

/-! ## Association-list map lemmas -/

theorem mapGet_eq_none {α : Type} (m : List (String × α)) (k : String)
    (h : k ∉ m.map Prod.fst) : mapGet m k = none := by
  induction m with
  | nil => rfl
  | cons p rest ih =>
    obtain ⟨k', w⟩ := p
    simp only [List.map_cons, List.mem_cons, not_or] at h
    have h1 : ¬k' = k := fun hk => h.1 hk.symm
    simp [mapGet, h1, ih h.2]

theorem mapGet_mapSet_self {α : Type} (m : List (String × α)) (k : String) (v : α) :
    mapGet (mapSet m k v) k = some v := by
  induction m with
  | nil => simp [mapSet, mapGet]
  | cons p rest ih =>
    obtain ⟨k', w⟩ := p
    by_cases hk : k' = k <;> simp [mapSet, hk, mapGet, ih]

theorem mapSet_eq_self {α : Type} (m : List (String × α)) (k : String) (v : α)
    (h : mapGet m k = some v) : mapSet m k v = m := by
  induction m with
  | nil => simp [mapGet] at h
  | cons p rest ih =>
    obtain ⟨k', w⟩ := p
    by_cases hk : k' = k
    · subst hk
      simp only [mapGet, if_pos rfl] at h
      injection h with h
      simp [mapSet, h]
    · simp only [mapGet, if_neg hk] at h
      simp [mapSet, hk, ih h]

theorem mapGet_mapDelete_self {α : Type} (m : List (String × α)) (k : String)
    (h : (m.map Prod.fst).Nodup) : mapGet (mapDelete m k) k = none := by
  induction m with
  | nil => rfl
  | cons p rest ih =>
    obtain ⟨k', w⟩ := p
    simp only [List.map_cons, List.nodup_cons] at h
    by_cases hk : k' = k
    · subst hk
      simpa [mapDelete] using mapGet_eq_none rest k' h.1
    · simp [mapDelete, hk, mapGet, ih h.2]

theorem mem_of_mapGet_eq_some {α : Type} (m : List (String × α)) (k : String) (v : α)
    (h : mapGet m k = some v) : (k, v) ∈ m := by
  induction m with
  | nil => simp [mapGet] at h
  | cons p rest ih =>
    obtain ⟨k', w⟩ := p
    by_cases hk : k' = k
    · subst hk
      simp only [mapGet, if_pos rfl] at h
      injection h with h
      subst h
      exact List.mem_cons_self _ _
    · simp only [mapGet, if_neg hk] at h
      exact List.mem_cons_of_mem _ (ih h)

/-! ## Claim theorems -/

/-- C9: on every well-formed hub state, `remove` (the spec's `unregister`)
deletes the connection from the channel's subscriber set and drops the channel
entry entirely when the set becomes empty; removing a connection that is not
subscribed leaves the hub unchanged; and removing the same connection twice
has the same effect on the registry as removing it once. -/
theorem C9_unregister_remove_spec (h : SseHub) (ch : String) (c : Nat) (hwf : WFHub h) :
    (∀ s, mapGet h.channels ch = some s →
      mapGet (h.remove ch c).channels ch =
        (if s.erase c = [] then none else some (s.erase c))) ∧
    ((∀ s, mapGet h.channels ch = some s → c ∉ s) → h.remove ch c = h) ∧
    (h.remove ch c).remove ch c = h.remove ch c := by
  obtain ⟨hkeys, hsets⟩ := hwf
  refine ⟨?_, ?_, ?_⟩
  · intro s hs
    rw [SseHub.remove, hs]
    by_cases he : s.erase c = []
    · simp only [he, if_pos rfl]
      exact mapGet_mapDelete_self h.channels ch hkeys
    · simp only [if_neg he]
      rw [mapGet_mapSet_self]
  · intro habs
    cases hs : mapGet h.channels ch with
    | none => rw [SseHub.remove, hs]
    | some s =>
      have hc : c ∉ s := habs s hs
      have hne : s ≠ [] := (hsets _ (mem_of_mapGet_eq_some h.channels ch s hs)).1
      rw [SseHub.remove, hs]
      simp only [List.erase_of_not_mem hc, if_neg hne]
      exact congrArg SseHub.mk (mapSet_eq_self h.channels ch s hs)
  · cases hs : mapGet h.channels ch with
    | none =>
      have h1 : h.remove ch c = h := by rw [SseHub.remove, hs]
      rw [h1, h1]
    | some s =>
      have hnd : s.Nodup := (hsets _ (mem_of_mapGet_eq_some h.channels ch s hs)).2
      have h1 : h.remove ch c =
          (if s.erase c = [] then (⟨mapDelete h.channels ch⟩ : SseHub)
           else ⟨mapSet h.channels ch (s.erase c)⟩) := by
        rw [SseHub.remove, hs]
      by_cases he : s.erase c = []
      · rw [h1, if_pos he, SseHub.remove]
        rw [mapGet_mapDelete_self h.channels ch hkeys]
      · have hcm : c ∉ s.erase c := fun hmem =>
          (List.Nodup.mem_erase_iff hnd).1 hmem |>.1 rfl
        rw [h1, if_neg he, SseHub.remove]
        rw [mapGet_mapSet_self]
        simp only [List.erase_of_not_mem hcm, if_neg he]
        exact congrArg SseHub.mk (mapSet_eq_self (mapSet h.channels ch (s.erase c)) ch
          (s.erase c) (mapGet_mapSet_self h.channels ch (s.erase c)))

/-- Witness for C9: removing connection 1 twice from the hub holding
subscribers 1 and 2 on channel `c` equals removing it once. -/
theorem C9_unregister_remove_spec_witness :
    (SseHub.remove (SseHub.remove ⟨[("c", [1, 2])]⟩ "c" 1) "c" 1) =
      SseHub.remove ⟨[("c", [1, 2])]⟩ "c" 1 :=
  (C9_unregister_remove_spec ⟨[("c", [1, 2])]⟩ "c" 1 (by decide)).2.2

/-- C2: broadcasting on a channel whose registered subscriber set is `s` with
`N = s.length ≥ 1` performs exactly `N` delivery attempts, one per subscriber
in registration order; and whatever subset of connections fails
(`connOk` arbitrary), the sequence of attempted connections is still all of
`s`, so one subscriber's failure neither suppresses the delivery attempts to
the other `N - 1` nor escapes `broadcast` (per-connection write failure is a
result value, never an exception, see `SseHub.broadcastResults`). -/
theorem C2_broadcast_fanout (h : SseHub) (evt : SseEvent) (now : String)
    (s : List Nat) (n : Nat)
    (hs : mapGet h.channels evt.npc = some s) (hn : s.length = n) (_hpos : 1 ≤ n) :
    (h.broadcast evt now).length = n ∧
    (∀ connOk : Nat → Bool,
      (h.broadcastResults evt now connOk).map (fun r => r.1.conn) = s) ∧
    (∀ connOk : Nat → Bool, ∀ c ∈ s,
      ∃ r ∈ h.broadcastResults evt now connOk, r.1.conn = c) := by
  have hb : h.broadcast evt now =
      s.map (fun res => ⟨res, "event: " ++ evt.type, wireOf evt now⟩) := by
    rw [SseHub.broadcast, hs]
  have hmap : ∀ connOk : Nat → Bool,
      (h.broadcastResults evt now connOk).map (fun r => r.1.conn) = s := by
    intro connOk
    rw [SseHub.broadcastResults, hb, List.map_map, List.map_map]
    show List.map (fun res : Nat => res) s = s
    simp
  refine ⟨by rw [hb, List.length_map, hn], hmap, ?_⟩
  intro connOk c hc
  have hm := hmap connOk
  rcases List.mem_map.1 (hm ▸ hc) with ⟨r, hr, hrc⟩
  exact ⟨r, hr, hrc⟩

/-- Witness for C2: three subscribers on channel `c`, the write to connection
2 failing; all three delivery attempts are still made, in order. -/
theorem C2_broadcast_fanout_witness :
    ((SseHub.broadcastResults ⟨[("c", [1, 2, 3])]⟩ ⟨"c", "done", none, none⟩ "t"
        (fun c => c != 2)).map (fun r => r.1.conn)) = [1, 2, 3] :=
  (C2_broadcast_fanout ⟨[("c", [1, 2, 3])]⟩ ⟨"c", "done", none, none⟩ "t" [1, 2, 3] 3
    rfl rfl (by decide)).2.1 (fun c => c != 2)

/-- Characterization of a successful `EventSchema.safeParse`: the body carried
a string `npc` of positive length and a string `type` from the vocabulary, and
the parsed event keeps `data`, has those fields, and carries no timestamp. -/
theorem eventSchemaSafeParse_eq_some (b : RawBody) (evt : SseEvent)
    (h : eventSchemaSafeParse b = some evt) :
    b.npc = some (Json.str evt.npc) ∧ b.type = some (Json.str evt.type) ∧
    evt.data = b.data ∧ evt.ts = none ∧ 1 ≤ evt.npc.length ∧ evt.type ∈ eventTypes := by
  unfold eventSchemaSafeParse at h
  split at h
  · split at h
    · split at h
      · injection h with h
        subst h
        simp_all
      · simp at h
    · simp at h
  · simp at h

/-- Every event the run handler hands to `hub.broadcast` is a `started` or an
`error` event. -/
theorem run_effect_broadcast_type (ms : List Mapping) (agent : String) (b : RunBody)
    (f : FetchResult) (now : String) (evt : SseEvent)
    (hmem : Effect.broadcast evt ∈ (registerRunHandler ms agent b f now).effects) :
    evt.type = "started" ∨ evt.type = "error" := by
  rcases hrow : ms.find? (fun m => m.agent == agent) with _ | row
  · rw [registerRunHandler, hrow] at hmem
    simp at hmem
  · rw [registerRunHandler, hrow] at hmem
    cases f with
    | success =>
      simp [startedEvent] at hmem
      exact Or.inl (by rw [hmem])
    | httpError st txt =>
      simp [startedEvent] at hmem
      rcases hmem with hm | hm
      · exact Or.inl (by rw [hm])
      · exact Or.inr (by rw [hm])
    | networkFailure msg =>
      simp [startedEvent] at hmem
      rcases hmem with hm | hm
      · exact Or.inl (by rw [hm])
      · exact Or.inr (by rw [hm])

/-- C5: the kinds accepted by the intake schema form exactly the closed
five-element enumeration of `eventTypes` (the spec names them `started`,
`progress`, `awaiting-input`, `completed`, `failed`; on the wire they are
`started`, `step`, `awaiting`, `done`, `error`): with the other fields valid,
a kind is accepted precisely when it belongs to the enumeration, the parsed
event carries that kind unchanged, and every event the run dispatcher
broadcasts also carries a kind of the enumeration. -/
theorem C5_closed_kind_enumeration (npcStr k : String) (d t : Option Json)
    (hn : 1 ≤ npcStr.length) :
    eventTypes = ["started", "step", "awaiting", "done", "error"] ∧
    ((eventSchemaSafeParse ⟨some (Json.str npcStr), some (Json.str k), d, t⟩).isSome = true ↔
      k ∈ eventTypes) ∧
    (∀ evt, eventSchemaSafeParse ⟨some (Json.str npcStr), some (Json.str k), d, t⟩ = some evt →
      evt.type = k) ∧
    (∀ ms agent b f now evt,
      Effect.broadcast evt ∈ (registerRunHandler ms agent b f now).effects →
      evt.type ∈ eventTypes) := by
  refine ⟨rfl, ?_, ?_, ?_⟩
  · by_cases hk : k ∈ eventTypes <;> simp [eventSchemaSafeParse, hn, hk]
  · intro evt hp
    have h2 := (eventSchemaSafeParse_eq_some _ _ hp).2.1
    injection h2 with h2
    injection h2 with h2
    exact h2.symm
  · intro ms agent b f now evt hmem
    rcases run_effect_broadcast_type ms agent b f now evt hmem with ht | ht <;>
      rw [ht] <;> decide

/-- Witness for C5: the wire kind `step` is accepted, the spec-level name
`progress` is not a wire kind and is rejected. -/
theorem C5_closed_kind_enumeration_witness :
    (eventSchemaSafeParse ⟨some (Json.str "c"), some (Json.str "step"),
      none, none⟩).isSome = true ∧
    (eventSchemaSafeParse ⟨some (Json.str "c"), some (Json.str "progress"),
      none, none⟩).isSome = false := by
  have h1 := C5_closed_kind_enumeration "c" "step" none none (by decide)
  have h2 := C5_closed_kind_enumeration "c" "progress" none none (by decide)
  refine ⟨h1.2.1.mpr (by decide), ?_⟩
  cases hi : (eventSchemaSafeParse ⟨some (Json.str "c"), some (Json.str "progress"),
      none, none⟩).isSome
  · rfl
  · exact absurd (h2.2.1.mp hi) (by decide)

/-- C6: the intake handler rejects with `400` and broadcasts nothing exactly
when the schema rejects the body — in particular when `npc` is missing or
empty or when the kind is outside the enumeration — and on a structurally
valid body it broadcasts the parsed event and replies `200`, for every hub
state, whether or not any subscriber is registered on the channel. -/
theorem C6_intake_validation (h : SseHub) (b : RawBody) (now : String) :
    (eventSchemaSafeParse b = none → registerEventsHandler h b now = ⟨400, none, []⟩) ∧
    (∀ evt, eventSchemaSafeParse b = some evt →
      registerEventsHandler h b now = ⟨200, some evt, h.broadcast evt now⟩) ∧
    (b.npc = none → eventSchemaSafeParse b = none) ∧
    (b.npc = some (Json.str "") → eventSchemaSafeParse b = none) ∧
    (∀ k, b.type = some (Json.str k) → k ∉ eventTypes → eventSchemaSafeParse b = none) := by
  refine ⟨?_, ?_, ?_, ?_, ?_⟩
  · intro hp
    rw [registerEventsHandler, hp]
  · intro evt hp
    rw [registerEventsHandler, hp]
  · intro hnpc
    unfold eventSchemaSafeParse
    rw [hnpc]
  · intro hnpc
    unfold eventSchemaSafeParse
    rw [hnpc]
    cases htype : b.type with
    | none => rfl
    | some j => cases j <;> rfl
  · intro k htype hk
    unfold eventSchemaSafeParse
    cases hnpc : b.npc with
    | none => rfl
    | some j =>
      cases j <;> try rfl
      rename_i n
      rw [htype]
      show (if 1 ≤ n.length ∧ k ∈ eventTypes
          then some (⟨n, k, b.data, none⟩ : SseEvent) else none) = none
      rw [if_neg (fun hc => hk hc.2)]

/-- Witness for C6: a body with the out-of-enumeration kind `bogus` is
rejected with `400` and zero delivery attempts. -/
theorem C6_intake_validation_witness :
    registerEventsHandler ⟨[]⟩ ⟨some (Json.str "c"), some (Json.str "bogus"), none, none⟩
      "t0" = ⟨400, none, []⟩ := by
  have hc := C6_intake_validation ⟨[]⟩
    ⟨some (Json.str "c"), some (Json.str "bogus"), none, none⟩ "t0"
  exact hc.1 (hc.2.2.2.2 "bogus" rfl (by decide))

/-- C8 counterexample: an intake body that includes a producer timestamp
(`ts` field, `2020-01-01...`).  The schema strips it (`EventSchema` declares
no `ts` key), so the delivered wire event carries the gateway clock
(`2024-05-05...`), not the producer-supplied value — refuting that a
producer-supplied timestamp is preserved. -/
theorem C8_counterexample :
    ((registerEventsHandler ⟨[("c", [1])]⟩
        ⟨some (Json.str "c"), some (Json.str "done"), none,
          some (Json.str "2020-01-01T00:00:00.000Z")⟩
        "2024-05-05T00:00:00.000Z").deliveries.map (fun d => (d.conn, d.dataEvent.ts))) =
      [(1, "2024-05-05T00:00:00.000Z")] ∧
    (eventSchemaSafeParse ⟨some (Json.str "c"), some (Json.str "done"), none,
        some (Json.str "2020-01-01T00:00:00.000Z")⟩).map (fun e => e.ts) = some none ∧
    ("2024-05-05T00:00:00.000Z" : String) ≠ "2020-01-01T00:00:00.000Z" :=
  ⟨by decide, by decide, by decide⟩

/-- C8 amended: every event accepted by the intake route is broadcast with
the gateway-assigned timestamp; a producer-supplied timestamp in the request
body is stripped by the schema and never reaches the wire.  (The hub itself
would keep a non-empty `ts` already present on an event object, but intake
events never carry one.) -/
theorem C8_gateway_assigns_intake_timestamp (b : RawBody) (evt : SseEvent) (now : String)
    (hp : eventSchemaSafeParse b = some evt) :
    evt.ts = none ∧ serializedTs evt now = now ∧
    (∀ hub : SseHub, ∀ d ∈ (registerEventsHandler hub b now).deliveries,
      d.dataEvent.ts = now) := by
  have hts : evt.ts = none := (eventSchemaSafeParse_eq_some b evt hp).2.2.2.1
  have hser : serializedTs evt now = now := by simp [serializedTs, hts]
  refine ⟨hts, hser, ?_⟩
  intro hub d hd
  have hre : registerEventsHandler hub b now = ⟨200, some evt, hub.broadcast evt now⟩ := by
    rw [registerEventsHandler, hp]
  rw [hre] at hd
  unfold SseHub.broadcast at hd
  cases hset : mapGet hub.channels evt.npc with
  | none =>
    rw [hset] at hd
    simp at hd
  | some s =>
    rw [hset] at hd
    simp only [List.mem_map] at hd
    obtain ⟨res, _, hdd⟩ := hd
    rw [← hdd]
    simp [wireOf, hser]

/-- Witness for C8's amended claim: the delivery performed for a valid body
with no timestamp field carries the gateway clock value `t9`. -/
theorem C8_gateway_assigns_intake_timestamp_witness :
    (Delivery.mk 1 ("event: " ++ "done")
      (wireOf ⟨"c", "done", none, none⟩ "t9")).dataEvent.ts = "t9" :=
  (C8_gateway_assigns_intake_timestamp
    ⟨some (Json.str "c"), some (Json.str "done"), none, none⟩
    ⟨"c", "done", none, none⟩ "t9" rfl).2.2 ⟨[("c", [1])]⟩
    (Delivery.mk 1 ("event: " ++ "done") (wireOf ⟨"c", "done", none, none⟩ "t9"))
    (List.Mem.head _)

/-- C3: a run-trigger request for an agent with no row in the mapping replies
`404` and performs no side effect: no broadcast on any channel and no outbound
call to any webhook URL (the effect trace is empty). -/
theorem C3_unknown_agent_no_side_effects (ms : List Mapping) (agent : String)
    (b : RunBody) (f : FetchResult) (now : String)
    (h : ms.find? (fun m => m.agent == agent) = none) :
    registerRunHandler ms agent b f now = ⟨404, []⟩ := by
  rw [registerRunHandler, h]

/-- Witness for C3: triggering the unmapped agent `ghost` against an empty
mapping file replies `404` with an empty effect trace. -/
theorem C3_unknown_agent_no_side_effects_witness :
    registerRunHandler [] "ghost" ⟨none, none⟩ FetchResult.success "t0" = ⟨404, []⟩ :=
  C3_unknown_agent_no_side_effects [] "ghost" ⟨none, none⟩ FetchResult.success "t0" rfl

/-- C7: for a mapped agent, the handler replies `200` when the outbound call
succeeds; on a non-success HTTP status it broadcasts an `error` event carrying
the status and response text on the resolved channel and replies `502`; and
when the call cannot complete it broadcasts an `error` event carrying the
error message and replies `500`. -/
theorem C7_outbound_failure_reporting (ms : List Mapping) (agent : String)
    (b : RunBody) (now : String) (row : Mapping)
    (hrow : ms.find? (fun m => m.agent == agent) = some row) :
    (registerRunHandler ms agent b FetchResult.success now).status = 200 ∧
    (∀ st txt,
      (registerRunHandler ms agent b (FetchResult.httpError st txt) now).status = 502 ∧
      Effect.broadcast ⟨resolveNpc b row.npc, "error",
          some (Json.obj [("agent", Json.str agent), ("status", Json.num st),
            ("txt", Json.str txt)]), none⟩ ∈
        (registerRunHandler ms agent b (FetchResult.httpError st txt) now).effects) ∧
    (∀ msg,
      (registerRunHandler ms agent b (FetchResult.networkFailure msg) now).status = 500 ∧
      Effect.broadcast ⟨resolveNpc b row.npc, "error",
          some (Json.obj [("agent", Json.str agent), ("message", Json.str msg)]), none⟩ ∈
        (registerRunHandler ms agent b (FetchResult.networkFailure msg) now).effects) := by
  refine ⟨?_, ?_, ?_⟩
  · rw [registerRunHandler, hrow]
  · intro st txt
    rw [registerRunHandler, hrow]
    exact ⟨rfl, by simp⟩
  · intro msg
    rw [registerRunHandler, hrow]
    exact ⟨rfl, by simp⟩

/-- Witness for C7: a webhook replying status 500 with text `boom` yields a
`502` reply to the original caller. -/
theorem C7_outbound_failure_reporting_witness :
    (registerRunHandler [Mapping.mk "a" "ch" "u"] "a" ⟨none, none⟩
      (FetchResult.httpError 500 "boom") "t0").status = 502 :=
  ((C7_outbound_failure_reporting [Mapping.mk "a" "ch" "u"] "a" ⟨none, none⟩ "t0"
    (Mapping.mk "a" "ch" "u") rfl).2.1 500 "boom").1

/-- C1 counterexample: agent `a` is mapped to channel `ch1`, yet the request
body carrying `npc = "ch2"` makes the handler broadcast its one `started`
event on `ch2`: the number of `started` broadcasts on the mapped channel
`ch1` is zero, not one — refuting the claim that the `started` event always
goes to the channel mapped to the agent. -/
theorem C1_counterexample :
    ([Mapping.mk "a" "ch1" "u"].find? (fun m => m.agent == "a") =
      some (Mapping.mk "a" "ch1" "u")) ∧
    ((registerRunHandler [Mapping.mk "a" "ch1" "u"] "a" ⟨some "ch2", none⟩
        FetchResult.success "t0").effects.filter (isStartedOn "ch1")).length = 0 :=
  ⟨by decide, by decide⟩

/-- C1 amended: for every mapped agent, the handler broadcasts exactly one
`started` event, on the RESOLVED channel (the request body's non-empty `npc`
when present, otherwise the mapped channel), and this broadcast is the first
effect, strictly before the single outbound POST attempt. -/
theorem C1_started_once_before_post (ms : List Mapping) (agent : String)
    (b : RunBody) (f : FetchResult) (now : String) (row : Mapping)
    (hrow : ms.find? (fun m => m.agent == agent) = some row) :
    ((registerRunHandler ms agent b f now).effects.filter
        (isStartedOn (resolveNpc b row.npc))).length = 1 ∧
    (registerRunHandler ms agent b f now).effects.head? =
      some (Effect.broadcast (startedEvent (resolveNpc b row.npc) agent now)) ∧
    ((registerRunHandler ms agent b f now).effects.filter isPostEffect).length = 1 ∧
    (registerRunHandler ms agent b f now).effects[1]? =
      some (Effect.post row.webhookUrl
        ⟨b.payload.getD (Json.obj []), resolveNpc b row.npc, agent⟩) := by
  cases f <;> rw [registerRunHandler, hrow] <;>
    refine ⟨?_, rfl, by simp [isPostEffect], rfl⟩ <;>
      simp [isStartedOn, startedEvent]

/-- Witness for C1's amended claim: with no body `npc`, the first effect is
the `started` broadcast on the mapped channel and the POST follows it. -/
theorem C1_started_once_before_post_witness :
    (registerRunHandler [Mapping.mk "a" "ch" "u"] "a" ⟨none, none⟩
        FetchResult.success "t0").effects.head? =
      some (Effect.broadcast
        (startedEvent (resolveNpc ⟨none, none⟩ "ch") "a" "t0")) :=
  (C1_started_once_before_post [Mapping.mk "a" "ch" "u"] "a" ⟨none, none⟩
    FetchResult.success "t0" (Mapping.mk "a" "ch" "u") rfl).2.1

/-- C10: whenever the request body carries a non-empty `npc`, that value — and
not the channel mapped to the agent — is the channel of every broadcast the
handler performs and the `npc` field of the outbound POST body. -/
theorem C10_body_npc_overrides_channel (ms : List Mapping) (agent : String)
    (b : RunBody) (f : FetchResult) (now : String) (row : Mapping) (s : String)
    (hrow : ms.find? (fun m => m.agent == agent) = some row)
    (hnpc : b.npc = some s) (hne : s ≠ "") :
    (∀ evt, Effect.broadcast evt ∈ (registerRunHandler ms agent b f now).effects →
      evt.npc = s) ∧
    (∀ u pb, Effect.post u pb ∈ (registerRunHandler ms agent b f now).effects →
      pb.npc = s) := by
  have hres : resolveNpc b row.npc = s := by
    rw [resolveNpc, hnpc]
    exact if_neg hne
  constructor
  · intro evt hmem
    rw [registerRunHandler, hrow] at hmem
    cases f <;> simp [startedEvent] at hmem
    · rw [hmem]
      exact hres
    · rcases hmem with hm | hm <;> rw [hm] <;> exact hres
    · rcases hmem with hm | hm <;> rw [hm] <;> exact hres
  · intro u pb hmem
    rw [registerRunHandler, hrow] at hmem
    cases f <;> simp [startedEvent] at hmem <;> rw [hmem.2]
    · exact hres
    · exact hres
    · exact hres

/-- Witness for C10: agent `a` is mapped to `ch1`, the body carries
`npc = "ch2"`, and the `started` broadcast goes out on `ch2`. -/
theorem C10_body_npc_overrides_channel_witness :
    (startedEvent (resolveNpc ⟨some "ch2", none⟩ "ch1") "a" "t0").npc = "ch2" :=
  (C10_body_npc_overrides_channel [Mapping.mk "a" "ch1" "u"] "a" ⟨some "ch2", none⟩
    FetchResult.success "t0" (Mapping.mk "a" "ch1" "u") "ch2" rfl rfl
    (by decide)).1
    (startedEvent (resolveNpc ⟨some "ch2", none⟩ "ch1") "a" "t0")
    (List.Mem.head _)

/-- C4 counterexample: two gateway states with the SAME startup file content
but different request-time content (the file was modified after startup).
The identical request resolves differently — `200` against the original
content, `404` after the row was removed — refuting that agent resolution
depends only on the configuration present at startup. -/
theorem C4_counterexample :
    (handleRunRequest ⟨[Mapping.mk "a" "ch" "u"], [Mapping.mk "a" "ch" "u"]⟩ "a"
        ⟨none, none⟩ FetchResult.success "t0").status = 200 ∧
    (handleRunRequest ⟨[Mapping.mk "a" "ch" "u"], []⟩ "a"
        ⟨none, none⟩ FetchResult.success "t0").status = 404 :=
  ⟨by decide, by decide⟩

/-- C4 amended: only the mapping file PATH is fixed at startup (`env.ts`); the
mapping table is re-read from the file on every run-trigger request, so agent
resolution is a function of the file content at request time: two states
agreeing on the request-time content serve the request identically regardless
of their startup content, and the request resolves to `404` exactly when the
request-time content has no row for the agent. -/
theorem C4_mapping_read_per_request (s1 s2 : GatewayFs) (agent : String)
    (b : RunBody) (f : FetchResult) (now : String)
    (h : s1.currentContent = s2.currentContent) :
    handleRunRequest s1 agent b f now = handleRunRequest s2 agent b f now ∧
    ((handleRunRequest s1 agent b f now).status = 404 ↔
      s1.currentContent.find? (fun m => m.agent == agent) = none) := by
  constructor
  · rw [handleRunRequest, handleRunRequest, h]
  · rw [handleRunRequest]
    cases hrow : s1.currentContent.find? (fun m => m.agent == agent) with
    | none =>
      rw [registerRunHandler, hrow]
      simp
    | some row =>
      cases f <;> rw [registerRunHandler, hrow] <;> simp

/-- Witness for C4's amended claim: two states sharing the request-time
content, one of them started with an empty file, serve the request the same
way. -/
theorem C4_mapping_read_per_request_witness :
    handleRunRequest ⟨[], [Mapping.mk "a" "ch" "u"]⟩ "a" ⟨none, none⟩
        FetchResult.success "t0" =
      handleRunRequest ⟨[Mapping.mk "a" "ch" "u"], [Mapping.mk "a" "ch" "u"]⟩ "a"
        ⟨none, none⟩ FetchResult.success "t0" :=
  (C4_mapping_read_per_request ⟨[], [Mapping.mk "a" "ch" "u"]⟩
    ⟨[Mapping.mk "a" "ch" "u"], [Mapping.mk "a" "ch" "u"]⟩ "a" ⟨none, none⟩
    FetchResult.success "t0" rfl).1

end EspritGateway
